import Mathlib

/-!
Shallow embedding of the Substrate ERC20 pallet in `src/v1/src/lib.rs`.

The pallet stores five scalar storage items (`MaxSupply : u64`,
`Decimals : u8` default 18, `Ticker : Vec<u8>`, `Minted : bool` default
false, `Name : Vec<u8>`), one map `Balances : AccountId → u64` and one
double map `Allowances : (AccountId, AccountId) → u64`.

Modelling decisions, all translated from the source:
* `AccountId` is opaque and equality-based; we model it as `Nat`.
* Substrate storage maps with `ValueQuery` semantics: `get` on an absent
  key returns the default `0`; `contains_key` distinguishes absence.
  We represent a map as an association list and define `lookupKV`,
  `insertKV`, `containsKV`, `getKV` mirroring `get` / `insert` /
  `contains_key`.
* `u64` values are `Nat`; the unguarded credit additions
  (`receiver_original_value + value`) wrap modulo `2 ^ 64`, the release-mode
  Rust semantics (the source has no overflow guard on the credit step).
  The debit subtractions are guarded by `ensure!` checks, so `Nat`
  subtraction agrees with `u64` subtraction there.
* Each dispatchable takes the already-authenticated caller (the result of
  `ensure_signed`) and the current storage state, and returns
  `Except MyError (State × List Event)`.  In the source every storage
  write occurs after every `ensure!` check, so an `.error` result
  corresponds to the storage being left exactly as it was; `applyOp`
  makes that explicit for traces.
-/

namespace ERC20

abbrev AccountId := Nat

/-- The `u64` modulus: unguarded `u64` additions in the source wrap mod this. -/
def U64LIMIT : Nat := 2 ^ 64

/-- First value stored under key `k`, `none` when the key is absent
(mirrors `contains_key` / the underlying trie lookup). -/
def lookupKV {κ : Type} [DecidableEq κ] : List (κ × Nat) → κ → Option Nat
  | [], _ => none
  | (k, v) :: rest, a => if k = a then some v else lookupKV rest a

/-- Storage `insert`: overwrite the entry for `k` or create it. -/
def insertKV {κ : Type} [DecidableEq κ] : List (κ × Nat) → κ → Nat → List (κ × Nat)
  | [], a, v => [(a, v)]
  | (k, w) :: rest, a, v =>
      if k = a then (k, v) :: rest else (k, w) :: insertKV rest a v

/-- Storage `contains_key`. -/
def containsKV {κ : Type} [DecidableEq κ] (m : List (κ × Nat)) (a : κ) : Bool :=
  (lookupKV m a).isSome

/-- Storage `get` with the `ValueQuery` default `0` for `u64` values. -/
def getKV {κ : Type} [DecidableEq κ] (m : List (κ × Nat)) (a : κ) : Nat :=
  (lookupKV m a).getD 0

/-- Sum of all stored values (used for the supply invariant). -/
def sumValues {κ : Type} (m : List (κ × Nat)) : Nat :=
  (m.map Prod.snd).sum

/-- The pallet's storage (`decl_storage!` block `TokenStorage`). -/
structure State where
  maxSupply : Nat
  decimals : Nat
  ticker : List Nat
  minted : Bool
  name : List Nat
  balances : List (AccountId × Nat)
  allowances : List ((AccountId × AccountId) × Nat)
deriving DecidableEq

/-- Storage defaults: `Decimals` defaults to `18`, `Minted` to `false`,
numeric items to `0`, byte vectors to empty, maps to empty. -/
def initialState : State :=
  { maxSupply := 0
    decimals := 18
    ticker := []
    minted := false
    name := []
    balances := []
    allowances := [] }

/-- `decl_error!` block `MyError`. -/
inductive MyError where
  | TickerTooBig
  | NameTooBig
  | NoValueStored
  | NotEnoughFunds
  | AlreadyMinted
  | NotEnoughAllowance
deriving DecidableEq

/-- `decl_event!` block `Event`. -/
inductive Event where
  | NameReturned (n : List Nat)
  | TickerReturned (t : List Nat)
  | DecimalsReturned (d : Nat)
  | Minted (b : Bool)
  | TotalSupplyReturned (m : Nat)
  | BalanceReturned (v : Nat)
  | Transfer (source dest : AccountId) (value : Nat)
  | Approval (owner spender : AccountId) (value : Nat)
  | AllowanceReturned (v : Nat)
deriving DecidableEq

/-- `fn mint(origin, name, ticker, supply, decimals)`:
checks `name.len() <= 64`, `ticker.len() <= 32`, `get_mint() == false`
in that order, then writes `Ticker`, `Name`, `MaxSupply`, `Decimals`,
`Balances[creator] := supply`, `Minted := true`.  Emits no event. -/
def mint (creator : AccountId) (tokName tokTicker : List Nat)
    (supply : Nat) (tokDecimals : Nat) (s : State) :
    Except MyError (State × List Event) :=
  if tokName.length ≤ 64 then
    if tokTicker.length ≤ 32 then
      if s.minted = false then
        .ok ({ s with
                ticker := tokTicker
                name := tokName
                maxSupply := supply
                decimals := tokDecimals
                balances := insertKV s.balances creator supply
                minted := true }, [])
      else .error .AlreadyMinted
    else .error .TickerTooBig
  else .error .NameTooBig

/-- `fn name(origin)`: emits `NameReturned(get_name())`. -/
def name (_user : AccountId) (s : State) : Except MyError (State × List Event) :=
  .ok (s, [Event.NameReturned s.name])

/-- `fn symbol(origin)`: emits `TickerReturned(get_ticker())`. -/
def symbol (_user : AccountId) (s : State) : Except MyError (State × List Event) :=
  .ok (s, [Event.TickerReturned s.ticker])

/-- `fn decimals(origin)`: emits `DecimalsReturned(get_decimals())`. -/
def decimals (_user : AccountId) (s : State) : Except MyError (State × List Event) :=
  .ok (s, [Event.DecimalsReturned s.decimals])

/-- `fn total_supply(origin)`: emits `TotalSupplyReturned(get_max_supply())`. -/
def total_supply (_user : AccountId) (s : State) : Except MyError (State × List Event) :=
  .ok (s, [Event.TotalSupplyReturned s.maxSupply])

/-- `fn balance_of(origin)`: fails `NoValueStored` when the caller has no
`Balances` entry, otherwise emits `BalanceReturned`. -/
def balance_of (user : AccountId) (s : State) : Except MyError (State × List Event) :=
  if containsKV s.balances user then
    .ok (s, [Event.BalanceReturned (getKV s.balances user)])
  else .error .NoValueStored

/-- `fn transfer(origin, toA, value)`: requires a `Balances` entry for the
caller and `balance(caller) >= value`; then writes
`Balances[user] := owner_original - value` followed by
`Balances[toA] := receiver_original + value` (wrapping), and emits
`Transfer(user, toA, value)`.  Note the two inserts hit the same key when
`user = toA`, the second overwriting the first. -/
def transfer (user toA : AccountId) (value : Nat) (s : State) :
    Except MyError (State × List Event) :=
  if containsKV s.balances user then
    let owner_original_value := getKV s.balances user
    if value ≤ owner_original_value then
      let receiver_original_value := getKV s.balances toA
      let owner_resulting_value := owner_original_value - value
      let receiver_resulting_value := (receiver_original_value + value) % U64LIMIT
      .ok ({ s with
              balances :=
                insertKV (insertKV s.balances user owner_resulting_value)
                  toA receiver_resulting_value },
           [Event.Transfer user toA value])
    else .error .NotEnoughFunds
  else .error .NoValueStored

/-- `fn transfer_from(origin, from, toA, value)`: the signed caller `_user`
is bound and never used.  Reads `Allowances[(from, toA)]` (default `0`),
requires it `>= value`, requires a `Balances` entry for `from` with
balance `>= value`; then writes the decremented allowance under
`(from, toA)`, the debited balance of `from`, the credited (wrapping)
balance of `toA`, and emits `Transfer(from, toA, value)`. -/
def transfer_from (_user fromA toA : AccountId) (value : Nat) (s : State) :
    Except MyError (State × List Event) :=
  let allowance := getKV s.allowances (fromA, toA)
  if value ≤ allowance then
    let updated_allowance := allowance - value
    if containsKV s.balances fromA then
      let owner_original_value := getKV s.balances fromA
      if value ≤ owner_original_value then
        let receiver_original_value := getKV s.balances toA
        let owner_resulting_value := owner_original_value - value
        let receiver_resulting_value := (receiver_original_value + value) % U64LIMIT
        .ok ({ s with
                allowances := insertKV s.allowances (fromA, toA) updated_allowance
                balances :=
                  insertKV (insertKV s.balances fromA owner_resulting_value)
                    toA receiver_resulting_value },
             [Event.Transfer fromA toA value])
      else .error .NotEnoughFunds
    else .error .NoValueStored
  else .error .NotEnoughAllowance

/-- `fn approve(origin, toA, value)`: unconditionally writes
`Allowances[(user, toA)] := value` and emits `Approval(user, toA, value)`. -/
def approve (user toA : AccountId) (value : Nat) (s : State) :
    Except MyError (State × List Event) :=
  .ok ({ s with allowances := insertKV s.allowances (user, toA) value },
       [Event.Approval user toA value])

/-- `fn allowance(origin, toA)`: fails `NoValueStored` when `(user, toA)` has
no `Allowances` entry, otherwise emits `AllowanceReturned`. -/
def allowance (user toA : AccountId) (s : State) : Except MyError (State × List Event) :=
  if containsKV s.allowances (user, toA) then
    .ok (s, [Event.AllowanceReturned (getKV s.allowances (user, toA))])
  else .error .NoValueStored

/-- One dispatchable call of the pallet, with its authenticated caller. -/
inductive Op where
  | mint (creator : AccountId) (tokName tokTicker : List Nat) (supply tokDecimals : Nat)
  | name (user : AccountId)
  | symbol (user : AccountId)
  | decimals (user : AccountId)
  | total_supply (user : AccountId)
  | balance_of (user : AccountId)
  | transfer (user toA : AccountId) (value : Nat)
  | transfer_from (user fromA toA : AccountId) (value : Nat)
  | approve (user toA : AccountId) (value : Nat)
  | allowance (user toA : AccountId)

/-- Dispatch one call against the state. -/
def step (s : State) : Op → Except MyError (State × List Event)
  | .mint c n t sup d => mint c n t sup d s
  | .name u => name u s
  | .symbol u => symbol u s
  | .decimals u => decimals u s
  | .total_supply u => total_supply u s
  | .balance_of u => balance_of u s
  | .transfer u toA v => transfer u toA v s
  | .transfer_from u f toA v => transfer_from u f toA v s
  | .approve u toA v => approve u toA v s
  | .allowance u toA => allowance u toA s

/-- The state after one call: the new state on success, the old state on
failure (in the source every storage write happens after every
`ensure!`, so a failed call leaves storage untouched). -/
def applyOp (s : State) (op : Op) : State :=
  match step s op with
  | .ok (s', _) => s'
  | .error _ => s

/-- Run a sequence of calls from a state. -/
def runOps (s : State) : List Op → State
  | [] => s
  | op :: rest => runOps (applyOp s op) rest

/-- A state reachable from genesis by some sequence of calls. -/
def Reachable (s : State) : Prop := ∃ ops, runOps initialState ops = s

/-! ### Association-list map lemmas -/

theorem lookupKV_insertKV_self {κ : Type} [DecidableEq κ]
    (m : List (κ × Nat)) (k : κ) (v : Nat) :
    lookupKV (insertKV m k v) k = some v := by
  induction m with
  | nil => simp [insertKV, lookupKV]
  | cons hd tl ih =>
      obtain ⟨k', w⟩ := hd
      by_cases h : k' = k
      · simp [insertKV, lookupKV, h]
      · simp [insertKV, lookupKV, h, ih]

theorem lookupKV_insertKV_ne {κ : Type} [DecidableEq κ]
    (m : List (κ × Nat)) (k k' : κ) (v : Nat) (h : k' ≠ k) :
    lookupKV (insertKV m k v) k' = lookupKV m k' := by
  have h' : k ≠ k' := Ne.symm h
  induction m with
  | nil => simp [insertKV, lookupKV, h']
  | cons hd tl ih =>
      obtain ⟨k₀, w⟩ := hd
      by_cases h₀ : k₀ = k
      · subst h₀
        simp [insertKV, lookupKV, h']
      · by_cases h₁ : k₀ = k'
        · subst h₁
          simp [insertKV, lookupKV, h₀]
        · simp [insertKV, lookupKV, h₀, h₁, ih]

theorem getKV_insertKV_self {κ : Type} [DecidableEq κ]
    (m : List (κ × Nat)) (k : κ) (v : Nat) :
    getKV (insertKV m k v) k = v := by
  simp [getKV, lookupKV_insertKV_self]

theorem getKV_insertKV_ne {κ : Type} [DecidableEq κ]
    (m : List (κ × Nat)) (k k' : κ) (v : Nat) (h : k' ≠ k) :
    getKV (insertKV m k v) k' = getKV m k' := by
  simp [getKV, lookupKV_insertKV_ne m k k' v h]

theorem containsKV_insertKV_self {κ : Type} [DecidableEq κ]
    (m : List (κ × Nat)) (k : κ) (v : Nat) :
    containsKV (insertKV m k v) k = true := by
  simp [containsKV, lookupKV_insertKV_self]

/-! ### Concrete states used to evaluate the operations -/

/-- A ledger in which account `0` holds `10` tokens. -/
def selfState : State := { initialState with balances := [(0, 10)] }

/-- The ledger `selfState` after `transfer(0, 0, 5)`. -/
def selfStateAfter : State := { initialState with balances := [(0, 15)] }

/-- A ledger in which account `0` holds `1` token and account `1` holds
the maximal `u64` balance. -/
def maxState : State := { initialState with balances := [(0, 1), (1, 2 ^ 64 - 1)] }

/-- The ledger `maxState` after `transfer(0, 1, 1)`: the credit wraps. -/
def maxStateAfter : State := { initialState with balances := [(0, 0), (1, 0)] }

/-- A ledger in which account `0` holds `5` tokens. -/
def selfTransferW : State := { initialState with balances := [(0, 5)] }

/-- The ledger `selfTransferW` after `transfer(0, 1, 3)`. -/
def selfTransferWAfter : State := { initialState with balances := [(0, 2), (1, 3)] }

/-- The spec's scenario state: Alice (`0`) holds `1000` and has approved
Bob (`1`) for `50`. -/
def aliceState : State :=
  { initialState with balances := [(0, 1000)], allowances := [((0, 1), 50)] }

/-- `aliceState` after Carol (`2`) invokes `transfer_from(Alice, Bob, 30)`. -/
def aliceStateAfter : State :=
  { initialState with balances := [(0, 970), (1, 30)], allowances := [((0, 1), 20)] }

/-- A ledger in which Alice (`0`) has approved Bob (`1`) for `3` tokens. -/
def lowAllowState : State := { initialState with allowances := [((0, 1), 3)] }

/-- The genesis allowance map after `approve(0, 1, 7)`. -/
def approvedOnce : State := { initialState with allowances := [((0, 1), 7)] }

/-- `approvedOnce` after `approve(0, 1, 9)`: the allowance is overwritten. -/
def approvedTwice : State := { initialState with allowances := [((0, 1), 9)] }

/-- A ledger in which account `0` holds `5` tokens and nothing has been
approved. -/
def noAllowState : State := { initialState with balances := [(0, 5)] }

/-- Invariant: before the mint the balance map has never been written. -/
def PreMintEmpty (s : State) : Prop := s.minted = false → s.balances = []

/-- The state produced by a first successful `mint(0, [1], [2], 100, 8)`. -/
def postMintState : State :=
  { initialState with
      ticker := [2]
      name := [1]
      maxSupply := 100
      decimals := 8
      balances := [(0, 100)]
      minted := true }

/-- The state produced by a genesis `mint(0, [1], [2], 7, 2)`. -/
def genesisMintState : State :=
  { initialState with
      ticker := [2]
      name := [1]
      maxSupply := 7
      decimals := 2
      balances := [(0, 7)]
      minted := true }

/-! ### C1 -/

/-- C1: the claim states that a successful `transfer(caller, to, v)` with
`caller == to` leaves `balance(caller)` unchanged and that every
successful transfer preserves `balance(caller) + balance(to)`.  Evaluating
the code at `balance(0) = 10`, `transfer(0, 0, 5)`: the call succeeds but
leaves `balance(0) = 15` — the credit insert overwrites the debit insert
on the same key, so a self-transfer mints `v` tokens out of thin air and
both parts of the claim fail on the code. -/
theorem C1_self_transfer_creates_funds :
    transfer 0 0 5 selfState = .ok (selfStateAfter, [Event.Transfer 0 0 5]) ∧
    getKV selfState.balances 0 = 10 ∧
    getKV selfStateAfter.balances 0 = 15 :=
  ⟨rfl, rfl, rfl⟩

/-! ### C2 -/

/-- C2, counterexample: with `balance(0) = 1` and `balance(1) = 2^64 - 1`,
`transfer(0, 1, 1)` between the distinct accounts `0` and `1` succeeds,
but `balance(1)` wraps to `0` rather than increasing by exactly `1`
(`0 ≠ (2^64 - 1) + 1`), and the pair sum drops from `2^64` to `0`: the
claim as stated fails on the code at this input. -/
theorem C2_counterexample :
    transfer 0 1 1 maxState = .ok (maxStateAfter, [Event.Transfer 0 1 1]) ∧
    getKV maxState.balances 1 = 2 ^ 64 - 1 ∧
    getKV maxStateAfter.balances 1 = 0 ∧
    getKV maxStateAfter.balances 1 ≠ getKV maxState.balances 1 + 1 ∧
    getKV maxStateAfter.balances 0 + getKV maxStateAfter.balances 1 ≠
      getKV maxState.balances 0 + getKV maxState.balances 1 :=
  ⟨rfl, rfl, rfl, by decide, by decide⟩

/-- C2, amended: provided the credit does not overflow `u64`
(`balance(b) + v < 2^64`), a successful `transfer(a, b, v)` with `a ≠ b`
decreases `balance(a)` by exactly `v` (and the success implies
`v ≤ balance(a)` and that `a` had an entry), sets `b`'s entry to
`balance(b) + v` (creating it at `v` when absent, since the default read
is `0`), leaves the sum of the two balances unchanged, and emits
`Transfer(a, b, v)`. -/
theorem C2_transfer_correct (s s' : State) (evs : List Event)
    (a b : AccountId) (v : Nat) (hab : a ≠ b)
    (hov : getKV s.balances b + v < U64LIMIT)
    (h : transfer a b v s = .ok (s', evs)) :
    containsKV s.balances a = true ∧
    v ≤ getKV s.balances a ∧
    getKV s'.balances a = getKV s.balances a - v ∧
    lookupKV s'.balances b = some (getKV s.balances b + v) ∧
    getKV s'.balances a + getKV s'.balances b =
      getKV s.balances a + getKV s.balances b ∧
    evs = [Event.Transfer a b v] := by
  by_cases hc : containsKV s.balances a = true
  case neg => simp [transfer, hc] at h
  case pos =>
    by_cases hv : v ≤ getKV s.balances a
    case neg => simp [transfer, hc, hv] at h
    case pos =>
      simp only [transfer, hc, hv, if_true, ite_true, eq_self_iff_true,
        Except.ok.injEq, Prod.mk.injEq] at h
      obtain ⟨hs, hev⟩ := h
      subst hs
      have hmod : (getKV s.balances b + v) % U64LIMIT = getKV s.balances b + v :=
        Nat.mod_eq_of_lt hov
      have hba : getKV
          (insertKV (insertKV s.balances a (getKV s.balances a - v)) b
            ((getKV s.balances b + v) % U64LIMIT)) a = getKV s.balances a - v := by
        rw [getKV_insertKV_ne _ b a _ hab, getKV_insertKV_self]
      have hbb : lookupKV
          (insertKV (insertKV s.balances a (getKV s.balances a - v)) b
            ((getKV s.balances b + v) % U64LIMIT)) b = some (getKV s.balances b + v) := by
        rw [lookupKV_insertKV_self, hmod]
      refine ⟨hc, hv, hba, hbb, ?_, hev.symm⟩
      have hbb' : getKV
          (insertKV (insertKV s.balances a (getKV s.balances a - v)) b
            ((getKV s.balances b + v) % U64LIMIT)) b = getKV s.balances b + v := by
        rw [getKV, hbb]
        rfl
      rw [hba, hbb']
      omega

/-- C2, witness: the amended theorem applied at `balance(0) = 5`,
`transfer(0, 1, 3)`. -/
theorem C2_transfer_correct_witness :
    containsKV selfTransferW.balances 0 = true ∧
    3 ≤ getKV selfTransferW.balances 0 ∧
    getKV selfTransferWAfter.balances 0 = getKV selfTransferW.balances 0 - 3 ∧
    lookupKV selfTransferWAfter.balances 1 = some (getKV selfTransferW.balances 1 + 3) ∧
    getKV selfTransferWAfter.balances 0 + getKV selfTransferWAfter.balances 1 =
      getKV selfTransferW.balances 0 + getKV selfTransferW.balances 1 ∧
    [Event.Transfer 0 1 3] = [Event.Transfer 0 1 3] :=
  C2_transfer_correct selfTransferW selfTransferWAfter [Event.Transfer 0 1 3]
    0 1 3 (by decide) (by norm_num [selfTransferW, initialState, getKV, lookupKV, U64LIMIT]) rfl

/-! ### `transfer_from` in guarded normal form -/

/-- `transfer_from` with its `let` bindings inlined: the three `ensure!`
guards in source order, then the three writes. -/
theorem transfer_from_eq (c fromA toA : AccountId) (v : Nat) (s : State) :
    transfer_from c fromA toA v s =
      if v ≤ getKV s.allowances (fromA, toA) then
        if containsKV s.balances fromA then
          if v ≤ getKV s.balances fromA then
            .ok ({ s with
                    allowances := insertKV s.allowances (fromA, toA)
                      (getKV s.allowances (fromA, toA) - v)
                    balances :=
                      insertKV (insertKV s.balances fromA (getKV s.balances fromA - v))
                        toA ((getKV s.balances toA + v) % U64LIMIT) },
                 [Event.Transfer fromA toA v])
          else .error .NotEnoughFunds
        else .error .NoValueStored
      else .error .NotEnoughAllowance := rfl

/-! ### C3 -/

/-- C3: `transfer_from(caller, from, to, value)` ignores the authenticated
caller entirely: any two callers get the same result on the same state.
Moreover success holds exactly when the allowance stored under the key
`(from, to)` covers `value` (plus the two balance guards), and success
spends that `(from, to)` allowance, decrementing it by `value`. -/
theorem C3_transfer_from_caller_independent (c₁ c₂ fromA toA : AccountId)
    (v : Nat) (s : State) :
    transfer_from c₁ fromA toA v s = transfer_from c₂ fromA toA v s ∧
    ((∃ s' evs, transfer_from c₁ fromA toA v s = .ok (s', evs)) ↔
      (v ≤ getKV s.allowances (fromA, toA) ∧
       containsKV s.balances fromA = true ∧
       v ≤ getKV s.balances fromA)) ∧
    (∀ s' evs, transfer_from c₁ fromA toA v s = .ok (s', evs) →
      getKV s'.allowances (fromA, toA) = getKV s.allowances (fromA, toA) - v) := by
  refine ⟨rfl, ?_, ?_⟩
  · constructor
    · rintro ⟨s', evs, hok⟩
      rw [transfer_from_eq] at hok
      by_cases h1 : v ≤ getKV s.allowances (fromA, toA)
      · by_cases h2 : containsKV s.balances fromA = true
        · by_cases h3 : v ≤ getKV s.balances fromA
          · exact ⟨h1, h2, h3⟩
          · simp [h1, h2, h3] at hok
        · simp [h1, h2] at hok
      · simp [h1] at hok
    · rintro ⟨h1, h2, h3⟩
      refine ⟨{ s with
                 allowances := insertKV s.allowances (fromA, toA)
                   (getKV s.allowances (fromA, toA) - v)
                 balances :=
                   insertKV (insertKV s.balances fromA (getKV s.balances fromA - v))
                     toA ((getKV s.balances toA + v) % U64LIMIT) },
              [Event.Transfer fromA toA v], ?_⟩
      rw [transfer_from_eq]
      simp [h1, h2, h3]
  · intro s' evs hok
    rw [transfer_from_eq] at hok
    by_cases h1 : v ≤ getKV s.allowances (fromA, toA)
    · by_cases h2 : containsKV s.balances fromA = true
      · by_cases h3 : v ≤ getKV s.balances fromA
        · simp only [h1, h2, h3, if_true, ite_true, Except.ok.injEq, Prod.mk.injEq] at hok
          obtain ⟨hs, hev⟩ := hok
          subst hs
          exact getKV_insertKV_self _ _ _
        · simp [h1, h2, h3] at hok
      · simp [h1, h2] at hok
    · simp [h1] at hok

/-- C3, witness: Carol spends Alice's allowance to Bob; the `(Alice, Bob)`
allowance drops from `50` to `20`. -/
theorem C3_transfer_from_caller_independent_witness :
    getKV aliceStateAfter.allowances (0, 1) = getKV aliceState.allowances (0, 1) - 30 :=
  (C3_transfer_from_caller_independent 2 7 0 1 30 aliceState).2.2
    aliceStateAfter [Event.Transfer 0 1 30] rfl

/-! ### C4 -/

/-- C4: `transfer_from` checks its guards in source order —
`allowance[(from,to)] >= value` else `NotEnoughAllowance`, then a balance
entry for `from` else `NoValueStored`, then `balance(from) >= value` else
`NotEnoughFunds`; on success the `(from,to)` allowance is decremented by
exactly `value`, and every failing call leaves the state unchanged
(every storage write in the source happens after every guard). -/
theorem C4_transfer_from_guard_order (c fromA toA : AccountId) (v : Nat) (s : State) :
    (¬ v ≤ getKV s.allowances (fromA, toA) →
      transfer_from c fromA toA v s = .error .NotEnoughAllowance) ∧
    (v ≤ getKV s.allowances (fromA, toA) → ¬ containsKV s.balances fromA = true →
      transfer_from c fromA toA v s = .error .NoValueStored) ∧
    (v ≤ getKV s.allowances (fromA, toA) → containsKV s.balances fromA = true →
      ¬ v ≤ getKV s.balances fromA →
      transfer_from c fromA toA v s = .error .NotEnoughFunds) ∧
    (∀ s' evs, transfer_from c fromA toA v s = .ok (s', evs) →
      getKV s'.allowances (fromA, toA) = getKV s.allowances (fromA, toA) - v) ∧
    (∀ e, transfer_from c fromA toA v s = .error e →
      applyOp s (Op.transfer_from c fromA toA v) = s) := by
  refine ⟨?_, ?_, ?_, ?_, ?_⟩
  · intro h1
    rw [transfer_from_eq]
    simp [h1]
  · intro h1 h2
    rw [transfer_from_eq]
    simp [h1, h2]
  · intro h1 h2 h3
    rw [transfer_from_eq]
    simp [h1, h2, h3]
  · intro s' evs hok
    rw [transfer_from_eq] at hok
    by_cases h1 : v ≤ getKV s.allowances (fromA, toA)
    · by_cases h2 : containsKV s.balances fromA = true
      · by_cases h3 : v ≤ getKV s.balances fromA
        · simp only [h1, h2, h3, if_true, ite_true, Except.ok.injEq, Prod.mk.injEq] at hok
          obtain ⟨hs, hev⟩ := hok
          subst hs
          exact getKV_insertKV_self _ _ _
        · simp [h1, h2, h3] at hok
      · simp [h1, h2] at hok
    · simp [h1] at hok
  · intro e he
    simp [applyOp, step, he]

/-- C4, witness: with allowance `3 < 5`, `transfer_from` fails
`NotEnoughAllowance`. -/
theorem C4_transfer_from_guard_order_witness :
    transfer_from 9 0 1 5 lowAllowState = .error .NotEnoughAllowance :=
  (C4_transfer_from_guard_order 9 0 1 5 lowAllowState).1 (by decide)

/-! ### C5 -/

/-- C5: `mint` checks its guards in source order — `len(name) <= 64` else
`NameTooBig`, then `len(ticker) <= 32` else `TickerTooBig`, then
`minted == false` else `AlreadyMinted`; any failure leaves the whole state
unchanged, and success sets ticker, name, maxSupply and decimals, writes
the caller's balance to `supply` (overwriting any prior entry), and sets
`minted := true`. -/
theorem C5_mint_guard_order (c : AccountId) (n t : List Nat)
    (supply d : Nat) (s : State) :
    (¬ n.length ≤ 64 → mint c n t supply d s = .error .NameTooBig) ∧
    (n.length ≤ 64 → ¬ t.length ≤ 32 → mint c n t supply d s = .error .TickerTooBig) ∧
    (n.length ≤ 64 → t.length ≤ 32 → s.minted = true →
      mint c n t supply d s = .error .AlreadyMinted) ∧
    (n.length ≤ 64 → t.length ≤ 32 → s.minted = false →
      mint c n t supply d s =
        .ok ({ s with
                ticker := t
                name := n
                maxSupply := supply
                decimals := d
                balances := insertKV s.balances c supply
                minted := true }, []) ∧
      getKV (insertKV s.balances c supply) c = supply) ∧
    (∀ e, mint c n t supply d s = .error e → applyOp s (Op.mint c n t supply d) = s) := by
  refine ⟨?_, ?_, ?_, ?_, ?_⟩
  · intro h1
    simp [mint, h1]
  · intro h1 h2
    simp [mint, h1, h2]
  · intro h1 h2 hm
    simp [mint, h1, h2, hm]
  · intro h1 h2 hm
    exact ⟨by simp [mint, h1, h2, hm], getKV_insertKV_self _ _ _⟩
  · intro e he
    simp [applyOp, step, he]

/-- C5, witness: minting `supply = 1000` with one-byte name and ticker from
genesis succeeds with the stated effect. -/
theorem C5_mint_guard_order_witness :
    mint 0 [1] [2] 1000 8 initialState =
      .ok ({ initialState with
              ticker := [2]
              name := [1]
              maxSupply := 1000
              decimals := 8
              balances := insertKV initialState.balances 0 1000
              minted := true }, []) ∧
    getKV (insertKV initialState.balances 0 1000) 0 = 1000 :=
  (C5_mint_guard_order 0 [1] [2] 1000 8 initialState).2.2.2.1
    (by decide) (by decide) rfl

/-! ### C8 -/

/-- C8: `approve(owner, spender, v)` never fails: it returns exactly the
input state with `allowance[(owner, spender)]` overwritten to `v`, leaves
every other allowance key (and every other component of the state, per the
record equality) unchanged, and emits `Approval(owner, spender, v)`; in
particular two successive approvals for `v1` then `v2` leave the
allowance at `v2`, not `v1 + v2`. -/
theorem C8_approve_overwrites (owner spender : AccountId)
    (v v1 v2 : Nat) (s : State) :
    approve owner spender v s =
      .ok ({ s with allowances := insertKV s.allowances (owner, spender) v },
           [Event.Approval owner spender v]) ∧
    getKV (insertKV s.allowances (owner, spender) v) (owner, spender) = v ∧
    (∀ k, k ≠ (owner, spender) →
      lookupKV (insertKV s.allowances (owner, spender) v) k = lookupKV s.allowances k) ∧
    (∀ s1 e1 s2 e2, approve owner spender v1 s = .ok (s1, e1) →
      approve owner spender v2 s1 = .ok (s2, e2) →
      getKV s2.allowances (owner, spender) = v2) := by
  refine ⟨rfl, getKV_insertKV_self _ _ _,
    fun k hk => lookupKV_insertKV_ne _ _ _ _ hk, ?_⟩
  intro s1 e1 s2 e2 h1 h2
  simp only [approve, Except.ok.injEq, Prod.mk.injEq] at h1 h2
  obtain ⟨hs1, _⟩ := h1
  subst hs1
  obtain ⟨hs2, _⟩ := h2
  subst hs2
  exact getKV_insertKV_self _ _ _

/-- C8, witness: approving `7` then `9` for the same pair leaves the
allowance at `9`. -/
theorem C8_approve_overwrites_witness :
    getKV approvedTwice.allowances (0, 1) = 9 :=
  (C8_approve_overwrites 0 1 5 7 9 initialState).2.2.2
    approvedOnce [Event.Approval 0 1 7] approvedTwice [Event.Approval 0 1 9] rfl rfl

/-! ### C9 -/

/-- C9: `balance_of(caller)` fails `NoValueStored` exactly when the caller
has no `Balances` entry and otherwise returns the unchanged state with
`BalanceReturned(stored balance)`; `allowance(caller, to)` fails
`NoValueStored` exactly when `(caller, to)` has no `Allowances` entry and
otherwise returns the unchanged state with `AllowanceReturned(stored
value)`. -/
theorem C9_queries_report_stored (user toA : AccountId) (s : State) :
    (lookupKV s.balances user = none →
      balance_of user s = .error .NoValueStored) ∧
    (∀ b, lookupKV s.balances user = some b →
      balance_of user s = .ok (s, [Event.BalanceReturned b])) ∧
    (lookupKV s.allowances (user, toA) = none →
      allowance user toA s = .error .NoValueStored) ∧
    (∀ a, lookupKV s.allowances (user, toA) = some a →
      allowance user toA s = .ok (s, [Event.AllowanceReturned a])) := by
  refine ⟨?_, ?_, ?_, ?_⟩
  · intro h
    simp [balance_of, containsKV, h]
  · intro b h
    simp [balance_of, containsKV, getKV, h]
  · intro h
    simp [allowance, containsKV, h]
  · intro a h
    simp [allowance, containsKV, getKV, h]

/-- C9, witness: at genesis, `balance_of(5)` fails `NoValueStored`, and on
a ledger with `balance(0) = 10` it reports `BalanceReturned(10)`. -/
theorem C9_queries_report_stored_witness :
    balance_of 5 initialState = .error .NoValueStored ∧
    balance_of 0 selfState = .ok (selfState, [Event.BalanceReturned 10]) :=
  ⟨(C9_queries_report_stored 5 0 initialState).1 rfl,
   (C9_queries_report_stored 0 0 selfState).2.1 10 rfl⟩

/-! ### C10 -/

/-- C10: on a state where `(from, to)` has no allowance entry but `from`
has a balance entry, `transfer_from(caller, from, to, 0)` succeeds — the
absent allowance reads as the default `0` and `0 >= 0` passes every
guard — and writes an explicit allowance entry of `0` under `(from, to)`,
so that a subsequent `allowance(from, to)` query succeeds with
`AllowanceReturned(0)` instead of failing `NoValueStored`. -/
theorem C10_zero_transfer_from_creates_allowance (c fromA toA : AccountId)
    (s : State)
    (h1 : lookupKV s.allowances (fromA, toA) = none)
    (h2 : containsKV s.balances fromA = true) :
    ∃ s' evs, transfer_from c fromA toA 0 s = .ok (s', evs) ∧
      lookupKV s'.allowances (fromA, toA) = some 0 ∧
      allowance fromA toA s' = .ok (s', [Event.AllowanceReturned 0]) := by
  have hget : getKV s.allowances (fromA, toA) = 0 := by simp [getKV, h1]
  refine ⟨{ s with
             allowances := insertKV s.allowances (fromA, toA) 0
             balances :=
               insertKV (insertKV s.balances fromA (getKV s.balances fromA - 0))
                 toA ((getKV s.balances toA + 0) % U64LIMIT) },
          [Event.Transfer fromA toA 0], ?_, ?_, ?_⟩
  · rw [transfer_from_eq]
    simp [hget, h2]
  · exact lookupKV_insertKV_self _ _ _
  · simp [allowance, containsKV, getKV, lookupKV_insertKV_self]

/-- C10, witness: a zero-value `transfer_from(0, 1, 0)` by caller `9` on
`noAllowState` succeeds and makes `allowance(0, 1)` answerable. -/
theorem C10_zero_transfer_from_creates_allowance_witness :
    ∃ s' evs, transfer_from 9 0 1 0 noAllowState = .ok (s', evs) ∧
      lookupKV s'.allowances (0, 1) = some 0 ∧
      allowance 0 1 s' = .ok (s', [Event.AllowanceReturned 0]) :=
  C10_zero_transfer_from_creates_allowance 9 0 1 noAllowState rfl rfl

/-! ### Trace-level helpers for the temporal claims -/

/-- `transfer` with its `let` bindings inlined. -/
theorem transfer_eq (user toA : AccountId) (v : Nat) (s : State) :
    transfer user toA v s =
      if containsKV s.balances user then
        if v ≤ getKV s.balances user then
          .ok ({ s with
                  balances :=
                    insertKV (insertKV s.balances user (getKV s.balances user - v))
                      toA ((getKV s.balances toA + v) % U64LIMIT) },
               [Event.Transfer user toA v])
        else .error .NotEnoughFunds
      else .error .NoValueStored := rfl

/-- Any successful call either keeps the minted flag or sets it to `true`:
no operation ever clears it. -/
theorem step_minted (s : State) (op : Op) (s' : State) (evs : List Event)
    (h : step s op = .ok (s', evs)) : s'.minted = s.minted ∨ s'.minted = true := by
  cases op with
  | mint c n t sup d =>
      by_cases h1 : n.length ≤ 64
      · by_cases h2 : t.length ≤ 32
        · by_cases h3 : s.minted = false
          · simp only [step, mint, h1, h2, h3, if_true, ite_true,
              Except.ok.injEq, Prod.mk.injEq] at h
            obtain ⟨hs, _⟩ := h
            subst hs
            right
            rfl
          · simp [step, mint, h1, h2, h3] at h
        · simp [step, mint, h1, h2] at h
      · simp [step, mint, h1] at h
  | name u =>
      simp only [step, name, Except.ok.injEq, Prod.mk.injEq] at h
      obtain ⟨hs, _⟩ := h
      subst hs
      left
      rfl
  | symbol u =>
      simp only [step, symbol, Except.ok.injEq, Prod.mk.injEq] at h
      obtain ⟨hs, _⟩ := h
      subst hs
      left
      rfl
  | decimals u =>
      simp only [step, decimals, Except.ok.injEq, Prod.mk.injEq] at h
      obtain ⟨hs, _⟩ := h
      subst hs
      left
      rfl
  | total_supply u =>
      simp only [step, total_supply, Except.ok.injEq, Prod.mk.injEq] at h
      obtain ⟨hs, _⟩ := h
      subst hs
      left
      rfl
  | balance_of u =>
      by_cases h1 : containsKV s.balances u = true
      · simp only [step, balance_of, h1, if_true, ite_true,
          Except.ok.injEq, Prod.mk.injEq] at h
        obtain ⟨hs, _⟩ := h
        subst hs
        left
        rfl
      · simp [step, balance_of, h1] at h
  | transfer u t v =>
      by_cases h1 : containsKV s.balances u = true
      · by_cases h2 : v ≤ getKV s.balances u
        · simp only [step, transfer_eq, h1, h2, if_true, ite_true,
            Except.ok.injEq, Prod.mk.injEq] at h
          obtain ⟨hs, _⟩ := h
          subst hs
          left
          rfl
        · simp [step, transfer_eq, h1, h2] at h
      · simp [step, transfer_eq, h1] at h
  | transfer_from u f t v =>
      by_cases h1 : v ≤ getKV s.allowances (f, t)
      · by_cases h2 : containsKV s.balances f = true
        · by_cases h3 : v ≤ getKV s.balances f
          · simp only [step, transfer_from_eq, h1, h2, h3, if_true, ite_true,
              Except.ok.injEq, Prod.mk.injEq] at h
            obtain ⟨hs, _⟩ := h
            subst hs
            left
            rfl
          · simp [step, transfer_from_eq, h1, h2, h3] at h
        · simp [step, transfer_from_eq, h1, h2] at h
      · simp [step, transfer_from_eq, h1] at h
  | approve u t v =>
      simp only [step, approve, Except.ok.injEq, Prod.mk.injEq] at h
      obtain ⟨hs, _⟩ := h
      subst hs
      left
      rfl
  | allowance u t =>
      by_cases h1 : containsKV s.allowances (u, t) = true
      · simp only [step, allowance, h1, if_true, ite_true,
          Except.ok.injEq, Prod.mk.injEq] at h
        obtain ⟨hs, _⟩ := h
        subst hs
        left
        rfl
      · simp [step, allowance, h1] at h

/-- Once the minted flag is set it survives every further call. -/
theorem applyOp_minted_mono (s : State) (op : Op) (h : s.minted = true) :
    (applyOp s op).minted = true := by
  unfold applyOp
  cases hstep : step s op with
  | ok p =>
      obtain ⟨s', evs⟩ := p
      rcases step_minted s op s' evs hstep with h1 | h1
      · show s'.minted = true
        rw [h1]
        exact h
      · exact h1
  | error e => exact h

theorem preMintEmpty_applyOp (s : State) (op : Op) (hInv : PreMintEmpty s) :
    PreMintEmpty (applyOp s op) := by
  by_cases hm : s.minted = true
  · intro h'
    exact absurd (applyOp_minted_mono s op hm) (by simp [h'])
  · have hmf : s.minted = false := by
      cases hb : s.minted
      · rfl
      · exact absurd hb hm
    have hb : s.balances = [] := hInv hmf
    cases op with
    | mint c n t sup d =>
        by_cases h1 : n.length ≤ 64
        · by_cases h2 : t.length ≤ 32
          · intro h'
            simp [applyOp, step, mint, h1, h2, hmf] at h'
          · intro _
            simp [applyOp, step, mint, h1, h2, hb]
        · intro _
          simp [applyOp, step, mint, h1, hb]
    | name u =>
        intro _
        simp [applyOp, step, name, hb]
    | symbol u =>
        intro _
        simp [applyOp, step, symbol, hb]
    | decimals u =>
        intro _
        simp [applyOp, step, decimals, hb]
    | total_supply u =>
        intro _
        simp [applyOp, step, total_supply, hb]
    | balance_of u =>
        intro _
        simp [applyOp, step, balance_of, hb, containsKV, lookupKV]
    | transfer u t v =>
        intro _
        simp [applyOp, step, transfer_eq, hb, containsKV, lookupKV]
    | transfer_from u f t v =>
        intro _
        by_cases h1 : v ≤ getKV s.allowances (f, t)
        · simp [applyOp, step, transfer_from_eq, h1, hb, containsKV, lookupKV]
        · simp [applyOp, step, transfer_from_eq, h1, hb]
    | approve u t v =>
        intro _
        simp [applyOp, step, approve, hb]
    | allowance u t =>
        intro _
        by_cases h1 : containsKV s.allowances (u, t) = true
        · simp [applyOp, step, allowance, h1, hb]
        · simp [applyOp, step, allowance, h1, hb]

theorem preMintEmpty_runOps (ops : List Op) :
    ∀ s, PreMintEmpty s → PreMintEmpty (runOps s ops) := by
  induction ops with
  | nil => exact fun s h => h
  | cons op rest ih => exact fun s h => ih (applyOp s op) (preMintEmpty_applyOp s op h)

theorem reachable_preMintEmpty (s : State) (h : Reachable s) : PreMintEmpty s := by
  obtain ⟨ops, hops⟩ := h
  have hrun := preMintEmpty_runOps ops initialState (fun _ => rfl)
  rwa [hops] at hrun

/-! ### C6 -/

/-- C6, counterexample: after one successful mint, a further mint call with
a 65-byte name fails with `NameTooBig`, not `AlreadyMinted` — the length
guards run before the minted guard — so the claim that every further mint
call fails with `AlreadyMinted` is false as stated. -/
theorem C6_counterexample :
    mint 0 [1] [2] 100 8 initialState = .ok (postMintState, []) ∧
    mint 1 (List.replicate 65 0) [2] 5 1 postMintState = .error .NameTooBig ∧
    MyError.NameTooBig ≠ MyError.AlreadyMinted :=
  ⟨rfl, rfl, by decide⟩

/-- C6, amended: the minted flag transitions `false → true` at most once —
once set, no call ever clears it — and after a successful mint every
further mint call fails (with `AlreadyMinted` whenever the name and ticker
pass their length guards, and with the corresponding input-validation
error otherwise), changing no field of the state: no metadata field and
no balance. -/
theorem C6_minted_at_most_once (s : State) (op : Op) (h : s.minted = true) :
    (applyOp s op).minted = true ∧
    (∀ c n t supply d,
      (∃ e, mint c n t supply d s = .error e) ∧
      (n.length ≤ 64 → t.length ≤ 32 →
        mint c n t supply d s = .error .AlreadyMinted) ∧
      applyOp s (Op.mint c n t supply d) = s) := by
  refine ⟨applyOp_minted_mono s op h, ?_⟩
  intro c n t sup d
  have herr : ∃ e, mint c n t sup d s = .error e := by
    by_cases h1 : n.length ≤ 64
    · by_cases h2 : t.length ≤ 32
      · exact ⟨.AlreadyMinted, by simp [mint, h1, h2, h]⟩
      · exact ⟨.TickerTooBig, by simp [mint, h1, h2]⟩
    · exact ⟨.NameTooBig, by simp [mint, h1]⟩
  refine ⟨herr, ?_, ?_⟩
  · intro h1 h2
    simp [mint, h1, h2, h]
  · obtain ⟨e, he⟩ := herr
    simp [applyOp, step, he]

/-- C6, witness: on `postMintState` the flag survives an `approve` call and
a further well-formed mint fails `AlreadyMinted`. -/
theorem C6_minted_at_most_once_witness :
    mint 1 [] [] 5 1 postMintState = .error .AlreadyMinted :=
  ((C6_minted_at_most_once postMintState (Op.approve 0 1 5) rfl).2 1 [] [] 5 1).2.1
    (by decide) (by decide)

/-! ### C7 -/

/-- C7: in every reachable state, a successful
`mint(_, _, supply, _)` leaves the sum of all balance-map values equal to
`supply`, which equals the stored `maxSupply`, with `minted = true` —
before the one successful mint the balance map is provably empty, and the
mint writes the single entry `caller ↦ supply`. -/
theorem C7_mint_sets_supply (s s' : State) (evs : List Event) (c : AccountId)
    (n t : List Nat) (supply d : Nat) (hreach : Reachable s)
    (h : mint c n t supply d s = .ok (s', evs)) :
    sumValues s'.balances = supply ∧ s'.maxSupply = supply ∧ s'.minted = true := by
  by_cases h1 : n.length ≤ 64
  · by_cases h2 : t.length ≤ 32
    · by_cases h3 : s.minted = false
      · have hb : s.balances = [] := reachable_preMintEmpty s hreach h3
        simp only [mint, h1, h2, h3, if_true, ite_true,
          Except.ok.injEq, Prod.mk.injEq] at h
        obtain ⟨hs, _⟩ := h
        subst hs
        refine ⟨?_, rfl, rfl⟩
        show sumValues (insertKV s.balances c supply) = supply
        rw [hb]
        simp [insertKV, sumValues]
      · simp [mint, h1, h2, h3] at h
    · simp [mint, h1, h2] at h
  · simp [mint, h1] at h

/-- C7, witness: minting `7` tokens from genesis gives total balances `7`,
`maxSupply = 7` and `minted = true`. -/
theorem C7_mint_sets_supply_witness :
    sumValues genesisMintState.balances = 7 ∧
    genesisMintState.maxSupply = 7 ∧
    genesisMintState.minted = true :=
  C7_mint_sets_supply initialState genesisMintState [] 0 [1] [2] 7 2 ⟨[], rfl⟩ rfl

end ERC20
